import Mathlib

/-!
Verification of the Plorth string prototype (`src/value-string.cpp` area of the
repository) against its natural-language specification.

The embedding below transliterates the C++ source:
* the three string-rope shapes `simple_string` / `concat_string` / `substring`
  become the inductive `PString`;
* `string::size_type` is `std::size_t`; its unsigned 64-bit subtraction is
  modelled by `usub` (explicit wraparound modulo `2 ^ 64`);
* the execution context's data stack and error slot become the structure `Ctx`;
* each built-in word `w_*` becomes a Lean function `Ctx → Ctx`.

An out-of-bounds buffer read in `simple_string::at` is undefined behaviour in
the source; the total function `PString.at'` collapses it to the junk
character `' '`, while `PString.at?` returns `none` exactly when the C++ read
would fall outside every underlying buffer.
-/

set_option autoImplicit false

namespace Plorth

/-- Modulus of `string::size_type` (`std::size_t`, unsigned 64-bit). -/
def usize : Nat := 2 ^ 64

/-- Unsigned 64-bit subtraction `a - b` with C++ wraparound semantics. -/
def usub (a b : Nat) : Nat := (a + usize - b % usize) % usize

/-- Modelled from the spec: `unichar_isspace` lives in `plorth/unicode.hpp`,
which is not part of the sources under review; the spec says whitespace is
decided by a Unicode property table.  The ASCII whitespace class suffices for
every claim below. -/
def unichar_isspace (c : Char) : Bool :=
  c = ' ' || c = '\t' || c = '\n' || c = '\r' ||
    c = Char.ofNat 11 || c = Char.ofNat 12

/-- The string rope: `simple_string` (inline buffer), `concat_string`
(two children) and `substring` (view into an original), from
the anonymous namespace of the string source file. -/
inductive PString where
  | simple (chars : List Char)
  | concat (left right : PString)
  | slice (original : PString) (m_offset m_length : Nat)
  deriving DecidableEq

/-- `length()` of each rope shape: buffer length, sum of children,
stored `m_length`. -/
def PString.length : PString → Nat
  | .simple cs => cs.length
  | .concat l r => l.length + r.length
  | .slice _ _ len => len

/-- `at(offset)` of each rope shape.  The out-of-bounds read of
`simple_string::at` (undefined behaviour in C++) is collapsed to `' '`. -/
def PString.at' : PString → Nat → Char
  | .simple cs, o => (cs[o]?).getD ' '
  | .concat l r, o => if o < l.length then l.at' o else r.at' (o - l.length)
  | .slice orig off _, o => orig.at' (off + o)

/-- `at(offset)` again, but returning `none` exactly when the chain of reads
reaches past the end of an underlying buffer (an undefined-behaviour read in
the C++ source). -/
def PString.at? : PString → Nat → Option Char
  | .simple cs, o => cs[o]?
  | .concat l r, o => if o < l.length then l.at? o else r.at? (o - l.length)
  | .slice orig off _, o => orig.at? (off + o)

/-- `string::to_string()`: appends `at(i)` for `i = 0 .. length()-1`. -/
def PString.to_string (s : PString) : List Char :=
  (List.range s.length).map s.at'

/-- `string::empty()` (declared in the string header, not under the sources
reviewed): length equals zero, as the spec's shape descriptions imply. -/
def PString.empty (s : PString) : Bool := s.length == 0

/-- Plorth numbers: a variant of signed 64-bit integer and IEEE double
(spec section 3.2).  A finite double is an exact rational, so the real
variant carries a rational. -/
inductive PNumber where
  | int_value (i : Int)
  | real_value (q : Rat)
  deriving DecidableEq

/-- Modelled from the spec: `number::as_int` (the number source file is not
under review).  The spec says a real count "truncates real to integer",
i.e. rounding toward zero. -/
def PNumber.as_int : PNumber → Int
  | .int_value i => i
  | .real_value q => if q < 0 then -(-q).floor else q.floor

/-- The ten value tags of the language (spec section 3.1).  The payloads of
the five tags that no claim inspects are omitted. -/
inductive Value where
  | nullv
  | boolean (b : Bool)
  | number (n : PNumber)
  | str (s : PString)
  | array (elements : List Value)
  | objectV
  | symbolV
  | quoteV
  | wordV
  | errorV

/-- `value::type_description`, from the value source file. -/
def Value.type_description : Value → String
  | .nullv => "null"
  | .boolean _ => "boolean"
  | .number _ => "number"
  | .str _ => "string"
  | .array _ => "array"
  | .objectV => "object"
  | .symbolV => "symbol"
  | .quoteV => "quote"
  | .wordV => "word"
  | .errorV => "error"

/-- `string::equals`: false for a null reference (`none`) or a non-string
tag, false when lengths differ, otherwise a codepoint-by-codepoint loop.
The function has no access to the context, so it can set no error. -/
def PString.equals (s : PString) (that : Option Value) : Bool :=
  match that with
  | none => false
  | some v =>
    match v with
    | .str t =>
      if s.length ≠ t.length then false
      else (List.range s.length).all (fun i => s.at' i == t.at' i)
    | _ => false

/-- Error codes used by the string words (spec section 6 taxonomy). -/
inductive ErrorCode where
  | codeRange
  | codeType
  | codeValue
  | codeReference
  | codeUnknown
  deriving DecidableEq

/-- An error value: code plus message (position omitted; no claim uses it). -/
structure PError where
  code : ErrorCode
  message : String
  deriving DecidableEq

/-- Execution context: the data stack (head = top) and the error slot. -/
structure Ctx where
  stack : List Value
  err : Option PError

/-- `context::push`. -/
def Ctx.push (ctx : Ctx) (v : Value) : Ctx :=
  { ctx with stack := v :: ctx.stack }

/-- `context::error(code, message)`. -/
def Ctx.setError (ctx : Ctx) (code : ErrorCode) (message : String) : Ctx :=
  { ctx with err := some ⟨code, message⟩ }

/-- Modelled from the spec (section 4.2; `context.cpp` is not under review,
its header is): `pop_string` pops the top if it is a string; an empty stack
sets the range error `"Stack underflow."`; a non-string top sets a type
error and leaves the stack unchanged. -/
def Ctx.popString (ctx : Ctx) : Ctx × Option PString :=
  match ctx.stack with
  | [] => (ctx.setError .codeRange "Stack underflow.", none)
  | v :: rest =>
    match v with
    | .str s => ({ ctx with stack := rest }, some s)
    | _ =>
      (ctx.setError .codeType
        ("Expected string, got " ++ v.type_description ++ "."), none)

/-- Modelled from the spec (section 4.2): `pop_number`, same protocol. -/
def Ctx.popNumber (ctx : Ctx) : Ctx × Option PNumber :=
  match ctx.stack with
  | [] => (ctx.setError .codeRange "Stack underflow.", none)
  | v :: rest =>
    match v with
    | .number n => ({ ctx with stack := rest }, some n)
    | _ =>
      (ctx.setError .codeType
        ("Expected number, got " ++ v.type_description ++ "."), none)

/-- Word `@` (`w_get`): pop a string, pop a number, adjust a negative index by
`+ length`, push the string back, then either set the range error (bound
check `index > length`, exactly as in the source) or push the one-codepoint
string read by `str->at(index)`. -/
def w_get (ctx : Ctx) : Ctx :=
  match ctx.popString with
  | (c1, none) => c1
  | (c1, some str) =>
    match c1.popNumber with
    | (c2, none) => c2
    | (c2, some num) =>
      let length := str.length
      let index0 : Int := num.as_int
      let index : Int := if index0 < 0 then index0 + length else index0
      let c3 := c2.push (.str str)
      if index < 0 ∨ index > (length : Int) then
        c3.setError .codeRange "String index out of bounds."
      else
        c3.push (.str (.simple [str.at' index.toNat]))

/-- Word `+` (`w_concat`): pop `a` (top), pop `b`; push `b` if `a` is empty,
push `a` if `b` is empty, otherwise push the concat node `concat(b, a)`. -/
def w_concat (ctx : Ctx) : Ctx :=
  match ctx.popString with
  | (c1, none) => c1
  | (c1, some a) =>
    match c1.popString with
    | (c2, none) => c2
    | (c2, some b) =>
      if a.empty then c2.push (.str b)
      else if b.empty then c2.push (.str a)
      else c2.push (.str (.concat b a))

/-- The repetition loop of `w_repeat`: `count` copies of the string's
codepoints, appended in order. -/
def repeatChars (s : PString) : Nat → List Char
  | 0 => []
  | k + 1 => s.to_string ++ repeatChars s k

/-- Word `*` (`w_repeat`): pop a string, pop a number, take the absolute
value of `as_int`, build the repeated buffer and push it as a simple
string (`push_string`). -/
def w_repeat (ctx : Ctx) : Ctx :=
  match ctx.popString with
  | (c1, none) => c1
  | (c1, some str) =>
    match c1.popNumber with
    | (c2, none) => c2
    | (c2, some num) =>
      let count : Int := num.as_int
      let count : Int := if count < 0 then -count else count
      c2.push (.str (.simple (repeatChars str count.toNat)))

/-- The left whitespace scan of `w_trim`:
`for (i = 0; i < length; ++i) if (!isspace(at(i))) break;`.
The fuel argument starts at `length`, which is exact: each recursion step
advances `i` by one. -/
def scanLeftIdx (s : PString) : Nat → Nat → Nat
  | 0, i => i
  | fuel + 1, i =>
    if i < s.length then
      if unichar_isspace (s.at' i) then scanLeftIdx s fuel (i + 1) else i
    else i

/-- The right whitespace scan of `w_trim`:
`for (j = length; j != 0; --j) if (!isspace(at(j - 1))) break;`. -/
def scanRightIdx (s : PString) : Nat → Nat
  | 0 => 0
  | j + 1 => if unichar_isspace (s.at' j) then scanRightIdx s j else j + 1

/-- Word `trim` (`w_trim`): scan from both ends; if `i != 0 || j != length`
push `substring(str, i, j - i)` — the subtraction in unsigned
`size_type` — else push the original string. -/
def w_trim (ctx : Ctx) : Ctx :=
  match ctx.popString with
  | (c1, none) => c1
  | (c1, some str) =>
    let length := str.length
    let i := scanLeftIdx str length 0
    let j := scanRightIdx str length
    if i ≠ 0 ∨ j ≠ length then
      c1.push (.str (.slice str i (usub j i)))
    else
      c1.push (.str str)

/-- The scanning loop of `w_lines` over indices `i`, window `[begin, end)`:
a `'\r'` immediately followed by `'\n'` emits the window and advances two
(`begin = end = ++i + 1` plus the loop increment); a lone `'\n'` or `'\r'`
emits and advances one; otherwise `++end`.  After the loop the tail is
emitted only when non-empty.  Fuel `s.length + 1` is enough since every
step advances `i` by at least one. -/
def linesLoop (s : PString) : Nat → Nat → Nat → Nat → List PString → List PString
  | 0, _, b, e, acc => if usub e b > 0 then acc ++ [.slice s b (usub e b)] else acc
  | fuel + 1, i, b, e, acc =>
    if i < s.length then
      let c := s.at' i
      if i + 1 < s.length ∧ c = '\r' ∧ s.at' (i + 1) = '\n' then
        linesLoop s fuel (i + 2) (i + 2) (i + 2) (acc ++ [.slice s b (usub e b)])
      else if c = '\n' ∨ c = '\r' then
        linesLoop s fuel (i + 1) (i + 1) (i + 1) (acc ++ [.slice s b (usub e b)])
      else
        linesLoop s fuel (i + 1) b (e + 1) acc
    else
      if usub e b > 0 then acc ++ [.slice s b (usub e b)] else acc

/-- The array of line slices produced by `w_lines` for a given string. -/
def lines_of (s : PString) : List PString :=
  linesLoop s (s.length + 1) 0 0 0 []

/-- Word `lines` (`w_lines`): pop a string, push it back, push the array of
line slices. -/
def w_lines (ctx : Ctx) : Ctx :=
  match ctx.popString with
  | (c1, none) => c1
  | (c1, some str) =>
    (c1.push (.str str)).push (.array ((lines_of str).map Value.str))

/-- The reversal buffer of `w_reverse`:
`result[length - i] = at(i - 1)` for `i = length .. 1`, i.e. position `k`
holds `at(length - 1 - k)`. -/
def reverse_chars (s : PString) : List Char :=
  (List.range s.length).map (fun k => s.at' (s.length - 1 - k))

/-- Word `reverse` (`w_reverse`): pop a string and push a fresh simple
string holding the codepoints in reverse order. -/
def w_reverse (ctx : Ctx) : Ctx :=
  match ctx.popString with
  | (c1, none) => c1
  | (c1, some str) => c1.push (.str (.simple (reverse_chars str)))

/-- Modelled from the spec: `is_number` (in `utils.hpp`, not under review)
recognises the texts `push_number` parses, which the context header calls
"decimal integer/real": an optional sign, one or more digits, and an
optional fraction of one or more digits. -/
def is_number (cs : List Char) : Bool :=
  match cs with
  | [] => false
  | c :: rest =>
    let body := if c = '+' ∨ c = '-' then rest else cs
    let ds := body.takeWhile Char.isDigit
    let tail := body.dropWhile Char.isDigit
    if ds.isEmpty then false
    else
      match tail with
      | [] => true
      | '.' :: frac => !frac.isEmpty && frac.all Char.isDigit
      | _ => false

/-- Horner accumulation of decimal digits. -/
def parse_digits (acc : Int) : List Char → Int
  | [] => acc
  | c :: rest => parse_digits (acc * 10 + ((c.toNat : Int) - ('0'.toNat : Int))) rest

/-- Modelled from the spec: `context::push_number` "parses decimal
integer/real" (context header); a text with a fraction part becomes a real
number, otherwise an integer. -/
def parse_number (cs : List Char) : PNumber :=
  let neg : Bool := match cs with | '-' :: _ => true | _ => false
  let body := match cs with
    | c :: rest => if c = '+' ∨ c = '-' then rest else cs
    | [] => []
  let ip := body.takeWhile Char.isDigit
  let tail := body.dropWhile Char.isDigit
  match tail with
  | '.' :: frac =>
    let fp := frac.takeWhile Char.isDigit
    let q : Rat := (parse_digits 0 ip : Rat) + (parse_digits 0 fp : Rat) / ((10 : Rat) ^ fp.length)
    .real_value (if neg then -q else q)
  | _ =>
    .int_value (if neg then -(parse_digits 0 ip) else parse_digits 0 ip)

/-- Word `>number` (`w_to_number`): pop a string, materialise it; if
`is_number` accepts the text push the parsed number, otherwise set the
value error `"Could not convert string to number."`.  The popped string is
not pushed back in either branch. -/
def w_to_number (ctx : Ctx) : Ctx :=
  match ctx.popString with
  | (c1, none) => c1
  | (c1, some a) =>
    let str := a.to_string
    if is_number str then c1.push (.number (parse_number str))
    else c1.setError .codeValue "Could not convert string to number."

theorem to_string_length (s : PString) : s.to_string.length = s.length := by
  simp [PString.to_string]

theorem to_string_getElem? (s : PString) (i : Nat) (h : i < s.length) :
    s.to_string[i]? = some (s.at' i) := by
  simp [PString.to_string, List.getElem?_map, List.getElem?_range, h]

theorem simple_to_string (cs : List Char) : (PString.simple cs).to_string = cs := by
  apply List.ext_getElem?
  intro i
  by_cases h : i < cs.length
  · rw [to_string_getElem? (.simple cs) i h]
    simp [PString.at', List.getElem?_eq_getElem h]
  · have h1 : (PString.simple cs).to_string[i]? = none := by
      apply List.getElem?_eq_none
      rw [to_string_length]
      simpa [PString.length] using h
    have h2 : cs[i]? = none := List.getElem?_eq_none (by simpa using h)
    rw [h1, h2]

theorem concat_to_string (a b : PString) :
    (PString.concat a b).to_string = a.to_string ++ b.to_string := by
  show (List.range (a.length + b.length)).map (PString.concat a b).at'
      = a.to_string ++ b.to_string
  rw [List.range_add, List.map_append, List.map_map]
  congr 1
  · apply List.map_congr_left
    intro i hi
    rw [List.mem_range] at hi
    simp [PString.at', hi]
  · apply List.map_congr_left
    intro j _
    show (PString.concat a b).at' (a.length + j) = b.at' j
    rw [PString.at']
    rw [if_neg (by omega)]
    congr 1
    omega

theorem slice_to_string (s : PString) (o l : Nat) (h : o + l ≤ s.length) :
    (PString.slice s o l).to_string = (s.to_string.drop o).take l := by
  apply List.ext_getElem?
  intro i
  rw [List.getElem?_take, List.getElem?_drop]
  by_cases hi : i < l
  · rw [if_pos hi]
    rw [to_string_getElem? (.slice s o l) i hi, to_string_getElem? s (o + i) (by omega)]
    rfl
  · rw [if_neg hi, List.getElem?_eq_none]
    rw [to_string_length]
    show l ≤ i
    omega

theorem empty_to_string {s : PString} (h : s.empty = true) : s.to_string = [] := by
  have hlen : s.length = 0 := by simpa [PString.empty] using h
  simp [PString.to_string, hlen]

theorem equals_true_iff (s t : PString) :
    s.equals (some (.str t)) = true ↔
      s.length = t.length ∧ ∀ i, i < s.length → s.at' i = t.at' i := by
  by_cases h : s.length = t.length
  · simp [PString.equals, h, List.all_eq_true, List.mem_range]
  · simp [PString.equals, h]

theorem at'_map_range (f : Nat → Char) (n k : Nat) (h : k < n) :
    (PString.simple ((List.range n).map f)).at' k = f k := by
  simp [PString.at', List.getElem?_map, List.getElem?_range, h]

theorem reverse_chars_length (s : PString) :
    (PString.simple (reverse_chars s)).length = s.length := by
  simp [PString.length, reverse_chars]

theorem at'_reverse (s : PString) (i : Nat) (h : i < s.length) :
    (PString.simple (reverse_chars s)).at' i = s.at' (s.length - 1 - i) := by
  unfold reverse_chars
  exact at'_map_range _ _ _ h

theorem repeatChars_eq_flatten (s : PString) (k : Nat) :
    repeatChars s k = List.flatten (List.replicate k s.to_string) := by
  induction k with
  | zero => rfl
  | succ k ih => simp [repeatChars, List.replicate_succ, ih]

theorem abs_toNat_eq_natAbs (c : Int) : (if c < 0 then -c else c).toNat = c.natAbs := by
  split <;> omega

/-- C4: for every string rope `s`, `s.to_string()` has exactly `s.length()`
codepoints and its `i`-th codepoint is `s.at(i)` for every `0 ≤ i < length`;
consequently `concat(a, b)` has length `a.length + b.length` and materialises
to `a.to_string ++ b.to_string`, and `slice(s, o, l)` materialises to
codepoints `o .. o+l` of `s.to_string()` whenever `o + l ≤ s.length()`. -/
theorem string_rope_coherence :
    (∀ s : PString, s.to_string.length = s.length ∧
      ∀ i, i < s.length → s.to_string[i]? = some (s.at' i)) ∧
    (∀ a b : PString, (PString.concat a b).length = a.length + b.length ∧
      (PString.concat a b).to_string = a.to_string ++ b.to_string) ∧
    (∀ (s : PString) (o l : Nat), o + l ≤ s.length →
      (PString.slice s o l).to_string = (s.to_string.drop o).take l) :=
  ⟨fun s => ⟨to_string_length s, fun i hi => to_string_getElem? s i hi⟩,
   fun a b => ⟨rfl, concat_to_string a b⟩,
   fun s o l h => slice_to_string s o l h⟩

/-- Witness for C4 at concrete inputs, discharging the slice hypothesis
`1 + 2 ≤ 4` on `"abcd"`. -/
theorem string_rope_coherence_witness :
    (PString.slice (.simple ("abcd".toList)) 1 2).to_string
        = (((PString.simple ("abcd".toList)).to_string).drop 1).take 2 ∧
    (PString.concat (.simple ("ab".toList)) (.simple ("cd".toList))).to_string
        = (PString.simple ("ab".toList)).to_string
            ++ (PString.simple ("cd".toList)).to_string :=
  ⟨string_rope_coherence.2.2 (.simple ("abcd".toList)) 1 2 (by decide),
   (string_rope_coherence.2.1 (.simple ("ab".toList)) (.simple ("cd".toList))).2⟩

/-- C1 (code bug): the `@` bounds check in the source is `index > length`,
not `index >= length`.  With `"hello"` on top and `5` beneath, the effective
index equals the length; the source sets no error (`err = none`), although
the claim — and the word's own documentation — require the range error, and
the read `str->at(5)` is past the end of the buffer (`at? 5 = none`).
With index `6` the error does fire, showing the check is off by exactly one. -/
theorem w_get_bounds_off_by_one :
    (w_get ⟨[.str (.simple ("hello".toList)), .number (.int_value 5)], none⟩).err
        = none ∧
    (PString.simple ("hello".toList)).at? 5 = none ∧
    (w_get ⟨[.str (.simple ("hello".toList)), .number (.int_value 5)], none⟩).stack
        = [.str (.simple [(PString.simple ("hello".toList)).at' 5]),
           .str (.simple ("hello".toList))] ∧
    (w_get ⟨[.str (.simple ("hello".toList)), .number (.int_value 6)], none⟩).err
        = some ⟨.codeRange, "String index out of bounds."⟩ :=
  ⟨rfl, rfl, rfl, rfl⟩

/-- C2 (code bug): on a non-empty all-whitespace string the left scan of
`w_trim` stops at `i = length` and the right scan at `j = 0`, and the slice
length `j - i` is computed in unsigned `size_type`: `0 - 1` underflows to
`2^64 - 1`.  The pushed value is therefore neither the original string nor a
slice shorter than the original, contradicting the claimed dichotomy (and the
slice invariant `offset + length ≤ original.length`). -/
theorem w_trim_whitespace_underflow :
    w_trim ⟨[.str (.simple [' '])], none⟩
        = ⟨[.str (.slice (.simple [' ']) 1 (2 ^ 64 - 1))], none⟩ ∧
    scanLeftIdx (.simple [' ']) 1 0 = 1 ∧
    scanRightIdx (.simple [' ']) 1 = 0 ∧
    usub 0 1 = 2 ^ 64 - 1 ∧
    (PString.slice (.simple [' ']) 1 (2 ^ 64 - 1)).length = 2 ^ 64 - 1 ∧
    ¬ ((PString.slice (.simple [' ']) 1 (2 ^ 64 - 1)).length
        < (PString.simple [' ']).length) ∧
    PString.slice (.simple [' ']) 1 (2 ^ 64 - 1) ≠ PString.simple [' '] :=
  ⟨rfl, rfl, rfl, rfl, rfl, by decide, by decide⟩

/-- C6 counterexample: pushing `"hello"` and then `-1` leaves the number on
top, but `w_get` pops the string first; `pop_string` then sets a type error
and leaves the stack unchanged, so the invocation does not succeed and no
`"o"` is produced. -/
theorem w_get_push_order_cex :
    (w_get ⟨[.number (.int_value (-1)), .str (.simple ("hello".toList))], none⟩).err
        = some ⟨.codeType, "Expected string, got number."⟩ ∧
    (w_get ⟨[.number (.int_value (-1)), .str (.simple ("hello".toList))], none⟩).err
        ≠ none ∧
    (w_get ⟨[.number (.int_value (-1)), .str (.simple ("hello".toList))], none⟩).stack
        = [.number (.int_value (-1)), .str (.simple ("hello".toList))] :=
  ⟨rfl, by decide, rfl⟩

/-- C6 amended: pushing `-1` first and then `"hello"` (string on top, as the
word's stack signature requires), `@` succeeds with no error and leaves the
one-codepoint string `"o"` on top with `"hello"` directly below it. -/
theorem w_get_hello_example :
    w_get ⟨[.str (.simple ("hello".toList)), .number (.int_value (-1))], none⟩
        = ⟨[.str (.simple ['o']), .str (.simple ("hello".toList))], none⟩ :=
  rfl

/-- C3 counterexample: when both operands are empty but are distinct rope
values, the source pushes the second pop (`x`), so the conjunct "if `x` is
empty the pushed value is `y` itself" fails: here `x` is empty yet the
pushed value is `x`, not `y`. -/
theorem w_concat_both_empty_cex :
    (w_concat ⟨[.str (.slice (.simple []) 0 0), .str (.simple [])], none⟩).stack
        = [.str (.simple [])] ∧
    (PString.simple []).empty = true ∧
    (PString.slice (.simple []) 0 0).empty = true ∧
    PString.simple [] ≠ PString.slice (.simple []) 0 0 :=
  ⟨rfl, rfl, rfl, by decide⟩

/-- C3 amended: with `x` pushed, then `y` (so `y` on top), `+` pushes exactly
one string whose codepoint content is `x ++ y`; if `y` is empty the pushed
value is `x` itself; otherwise if `x` is empty it is `y` itself; only when
both are non-empty is a concat node pushed, and that node's two sides are
the non-empty `x` and `y`, so no concat node created by `+` has a
zero-length side. -/
theorem w_concat_spec (x y : PString) (rest : List Value) :
    (w_concat ⟨.str y :: .str x :: rest, none⟩).err = none ∧
    ∃ r : PString,
      (w_concat ⟨.str y :: .str x :: rest, none⟩).stack = .str r :: rest ∧
      r.to_string = x.to_string ++ y.to_string ∧
      (y.empty = true → r = x) ∧
      (y.empty = false → x.empty = true → r = y) ∧
      (y.empty = false → x.empty = false →
        r = PString.concat x y ∧ x.length ≠ 0 ∧ y.length ≠ 0) := by
  by_cases hy : y.empty
  · refine ⟨by simp [w_concat, Ctx.popString, Ctx.push, hy], x, ?_, ?_, ?_, ?_, ?_⟩
    · simp [w_concat, Ctx.popString, Ctx.push, hy]
    · rw [empty_to_string hy, List.append_nil]
    · intro _; rfl
    · intro hy'; rw [hy] at hy'; cases hy'
    · intro hy'; rw [hy] at hy'; cases hy'
  · rw [Bool.not_eq_true] at hy
    by_cases hx : x.empty
    · refine ⟨by simp [w_concat, Ctx.popString, Ctx.push, hy, hx], y, ?_, ?_, ?_, ?_, ?_⟩
      · simp [w_concat, Ctx.popString, Ctx.push, hy, hx]
      · rw [empty_to_string hx, List.nil_append]
      · intro hy'; rw [hy] at hy'; cases hy'
      · intro _ _; rfl
      · intro _ hx'; rw [hx] at hx'; cases hx'
    · rw [Bool.not_eq_true] at hx
      refine ⟨by simp [w_concat, Ctx.popString, Ctx.push, hy, hx], .concat x y, ?_, ?_, ?_, ?_, ?_⟩
      · simp [w_concat, Ctx.popString, Ctx.push, hy, hx]
      · exact concat_to_string x y
      · intro hy'; rw [hy] at hy'; cases hy'
      · intro _ hx'; rw [hx] at hx'; cases hx'
      · intro _ _
        refine ⟨rfl, ?_, ?_⟩
        · simpa [PString.empty] using hx
        · simpa [PString.empty] using hy

/-- Witness for C3 at the spec's seed scenario: `"foo"` then `"bar"` gives a
concat node materialising to `"foobar"`. -/
theorem w_concat_spec_witness :
    (w_concat ⟨[.str (.simple ("bar".toList)), .str (.simple ("foo".toList))], none⟩).stack
        = [.str (.concat (.simple ("foo".toList)) (.simple ("bar".toList)))] ∧
    (PString.concat (.simple ("foo".toList)) (.simple ("bar".toList))).to_string
        = "foobar".toList := by
  obtain ⟨-, r, hstack, hcontent, -, -, hboth⟩ :=
    w_concat_spec (.simple ("foo".toList)) (.simple ("bar".toList)) []
  obtain ⟨hr, -, -⟩ := hboth (by decide) (by decide)
  subst hr
  refine ⟨hstack, ?_⟩
  rw [hcontent, simple_to_string, simple_to_string]
  decide

/-- C5: `lines` pushes the string back and then the array of line slices.
On `"line1\nline2\r\nline3\rline4"` the scan emits exactly the four slices
`"line1"`, `"line2"` (ended by the CRLF pair, both codepoints skipped),
`"line3"` (lone `'\r'`) and the non-empty tail `"line4"`.  An input ending
in a separator emits no trailing empty element (`"a\n"` gives one line),
while a line ended by a separator is emitted even when empty (`"\n\n"`
gives two empty lines). -/
theorem w_lines_spec :
    w_lines ⟨[.str (.simple ("line1\nline2\r\nline3\rline4".toList))], none⟩
        = ⟨[.array
              [.str (.slice (.simple ("line1\nline2\r\nline3\rline4".toList)) 0 5),
               .str (.slice (.simple ("line1\nline2\r\nline3\rline4".toList)) 6 5),
               .str (.slice (.simple ("line1\nline2\r\nline3\rline4".toList)) 13 5),
               .str (.slice (.simple ("line1\nline2\r\nline3\rline4".toList)) 19 5)],
            .str (.simple ("line1\nline2\r\nline3\rline4".toList))], none⟩ ∧
    (lines_of (.simple ("line1\nline2\r\nline3\rline4".toList))).map PString.to_string
        = ["line1".toList, "line2".toList, "line3".toList, "line4".toList] ∧
    lines_of (.simple ("a\n".toList)) = [.slice (.simple ("a\n".toList)) 0 1] ∧
    lines_of (.simple ("\n\n".toList))
        = [.slice (.simple ("\n\n".toList)) 0 0,
           .slice (.simple ("\n\n".toList)) 1 0] :=
  ⟨rfl, by decide, by decide, by decide⟩

/-- C7: with a number `n` beneath and a string `s` on top, `*` pops both and
pushes a single simple string holding `s`'s codepoints repeated
`|as_int(n)|` times — a real count is truncated by `as_int` and a negative
count replaced by its absolute value.  In particular `"ab"` with count `3`
gives `"ababab"`. -/
theorem w_repeat_spec (s : PString) (n : PNumber) (rest : List Value) :
    w_repeat ⟨.str s :: .number n :: rest, none⟩
        = ⟨.str (.simple (List.flatten
              (List.replicate n.as_int.natAbs s.to_string))) :: rest, none⟩ ∧
    w_repeat ⟨[.str (.simple ("ab".toList)), .number (.int_value 3)], none⟩
        = ⟨[.str (.simple ("ababab".toList))], none⟩ := by
  constructor
  · simp [w_repeat, Ctx.popString, Ctx.popNumber, Ctx.push,
      repeatChars_eq_flatten, abs_toNat_eq_natAbs]
  · rfl

/-- C8: a single application of `reverse` pushes a fresh simple string of
the same length whose codepoint at `i` is `s.at(length - 1 - i)`, and two
applications return a string that `equals` the original codepoint by
codepoint. -/
theorem w_reverse_spec (s : PString) (rest : List Value) :
    w_reverse ⟨.str s :: rest, none⟩
        = ⟨.str (.simple (reverse_chars s)) :: rest, none⟩ ∧
    (PString.simple (reverse_chars s)).length = s.length ∧
    (∀ i, i < s.length →
      (PString.simple (reverse_chars s)).at' i = s.at' (s.length - 1 - i)) ∧
    (PString.simple (reverse_chars (PString.simple (reverse_chars s)))).equals
        (some (.str s)) = true := by
  refine ⟨by simp [w_reverse, Ctx.popString, Ctx.push],
    reverse_chars_length s, fun i hi => at'_reverse s i hi, ?_⟩
  rw [equals_true_iff]
  have h1 : (PString.simple (reverse_chars s)).length = s.length :=
    reverse_chars_length s
  have h2 : (PString.simple (reverse_chars (PString.simple (reverse_chars s)))).length
      = s.length := by rw [reverse_chars_length, h1]
  refine ⟨h2, ?_⟩
  intro i hi
  rw [h2] at hi
  rw [at'_reverse _ i (by rw [h1]; exact hi)]
  rw [h1]
  rw [at'_reverse s (s.length - 1 - i) (by omega)]
  congr 1
  omega

/-- Witness for C8 on `"ab"`: position `0` of the reversal reads position
`1` of the original, and the double reversal equals the original. -/
theorem w_reverse_spec_witness :
    (PString.simple (reverse_chars (.simple ("ab".toList)))).at' 0
        = (PString.simple ("ab".toList)).at' 1 ∧
    (PString.simple (reverse_chars
        (PString.simple (reverse_chars (.simple ("ab".toList)))))).equals
        (some (.str (.simple ("ab".toList)))) = true :=
  ⟨(w_reverse_spec (.simple ("ab".toList)) []).2.2.1 0 (by decide),
   (w_reverse_spec (.simple ("ab".toList)) []).2.2.2⟩

/-- C9: `>number` pops the string; if the materialised text is accepted by
`is_number` it pushes the parsed number and does not push the string back,
otherwise it sets the value error `"Could not convert string to number."`
and pushes nothing.  `"12.5abc"` is rejected and yields the value error. -/
theorem w_to_number_spec (s : PString) (rest : List Value) :
    (is_number s.to_string = true →
      w_to_number ⟨.str s :: rest, none⟩
        = ⟨.number (parse_number s.to_string) :: rest, none⟩) ∧
    (is_number s.to_string = false →
      w_to_number ⟨.str s :: rest, none⟩
        = ⟨rest, some ⟨.codeValue, "Could not convert string to number."⟩⟩) ∧
    (w_to_number ⟨[.str (.simple ("12.5abc".toList))], none⟩).err
        = some ⟨.codeValue, "Could not convert string to number."⟩ := by
  refine ⟨fun h => ?_, fun h => ?_, rfl⟩
  · simp [w_to_number, Ctx.popString, Ctx.push, h]
  · simp [w_to_number, Ctx.popString, Ctx.setError, h]

/-- Witness for C9: `"42"` parses (hypothesis discharged by `decide`) and
`"12.5abc"` is rejected with the value error. -/
theorem w_to_number_spec_witness :
    w_to_number ⟨[.str (.simple ("42".toList))], none⟩
        = ⟨[.number (.int_value 42)], none⟩ ∧
    w_to_number ⟨[.str (.simple ("12.5abc".toList))], none⟩
        = ⟨[], some ⟨.codeValue, "Could not convert string to number."⟩⟩ :=
  ⟨(w_to_number_spec (.simple ("42".toList)) []).1 (by decide),
   (w_to_number_spec (.simple ("12.5abc".toList)) []).2.1 (by decide)⟩

/-- C10: `string::equals` (which has no access to the context, hence can set
no error) returns `true` exactly when the argument is a non-null string of
the same length agreeing at every index; a null reference (`none`), any
non-string tag, or a length mismatch gives `false`. -/
theorem string_equals_spec (s : PString) (that : Option Value) :
    s.equals that = true ↔
      ∃ t : PString, that = some (Value.str t) ∧ s.length = t.length ∧
        ∀ i, i < s.length → s.at' i = t.at' i := by
  cases that with
  | none => simp [PString.equals]
  | some v =>
    cases v
    case str t =>
      rw [equals_true_iff]
      constructor
      · rintro ⟨h1, h2⟩
        exact ⟨t, rfl, h1, h2⟩
      · rintro ⟨t', ht', h1, h2⟩
        injection ht' with h
        injection h with h
        subst h
        exact ⟨h1, h2⟩
    all_goals simp [PString.equals]

/-- Witness for C10: equality of `"ab"` with itself holds (via the
characterisation), and a boolean argument gives `false`. -/
theorem string_equals_spec_witness :
    (PString.simple ("ab".toList)).equals
        (some (.str (.simple ("ab".toList)))) = true ∧
    (PString.simple ("ab".toList)).equals (some (.boolean true)) = false :=
  ⟨(string_equals_spec (.simple ("ab".toList))
      (some (.str (.simple ("ab".toList))))).mpr ⟨_, rfl, rfl, fun _ _ => rfl⟩,
   rfl⟩

end Plorth
